import Mathlib

/-!
Verification of the Manhwa-Bot chapter-check subsystem.

This file is a shallow embedding of the two cogs that implement the
chapter-check subsystem of the bot:

* `src/cogs/Tracking.py`   (class `AddManhwaComick`): the scheduled pass
  (`_chapter_check_loop`), its HTTP helper `fetch_json` (with retries), the
  slug-resolving chapter lookup `get_latest_chapter` / `search_slug`, and the
  per-user DM fan-out.
* `src/cogs/Manual_Check.py` (class `ManualCheck`): the on-demand pass
  (`manual_check`), its retry-free `fetch_json`, `resolve_slug` and its own
  `get_latest_chapter`.

Modelling conventions:
* HTTP traffic is an oracle (environment record): each endpoint is a function
  from its path parameter to the decoded response.  `none` models every
  situation the Python guards treat identically: `fetch_json` returning
  `None`, a falsy response, or a missing top-level key.
* Chapter numbers are exact rationals; the Python code compares floats, but
  every comparison the claims mention is on decimal literals, where the float
  order and the rational order agree.
* The `chapter_tracking` table is a list of rows in table order.  A SQL
  `UPDATE ... WHERE` is a `List.map` that rewrites every matching row.  The
  schema constraint `UNIQUE(user_id, manhwa_slug)` is modelled by `keysNodup`;
  an `UPDATE` whose result would violate it raises (sqlite `IntegrityError`),
  which the embedding signals with `Except.error`.
* In `Manual_Check.py` all row updates share one connection whose single
  `commit` runs after the loop; an exception reaches the outer handler before
  the commit, so the connection closes with the transaction uncommitted and
  every change of the pass is rolled back.  `manual_check_committed` models
  the state that is actually durable.
-/

namespace ManhwaBot

/-- Outcome of one HTTP GET attempt as `fetch_json` sees it: a 200 response
with decoded JSON body, a non-200 status, a timeout, or any other transport
error. -/
inductive FetchAttempt (α : Type) where
  | ok (j : α)
  | badStatus (code : Nat)
  | timeout
  | transportError
deriving DecidableEq

/-- Whether the attempt is a 200 response. -/
def FetchAttempt.isOk {α : Type} : FetchAttempt α → Bool
  | .ok _ => true
  | _ => false

/-- One row of the `chapter_tracking` table:
`(user_id, manhwa_title, manhwa_slug, latest_chapter_notified,
last_notified_time)`.  The `id` autoincrement column is not modelled; row
identity is positional. -/
structure Row where
  user : Nat
  title : String
  slug : String
  latest : ℚ
  time : Nat
deriving DecidableEq

/-- The `chapter_tracking` table in table order. -/
abbrev Store := List Row

/-- The key constrained by `UNIQUE(user_id, manhwa_slug)`. -/
def rowKey (r : Row) : Nat × String := (r.user, r.slug)

/-- The columns no check pass may invent: `(user_id, manhwa_title,
manhwa_slug)`. -/
def rowSig (r : Row) : Nat × String × String := (r.user, r.title, r.slug)

/-- The schema invariant `UNIQUE(user_id, manhwa_slug)`. -/
def keysNodup (st : Store) : Prop := (st.map rowKey).Nodup

instance keysNodupDec (st : Store) : Decidable (keysNodup st) :=
  List.nodupDecidable (st.map rowKey)

lemma sigmap_keymap (st st' : Store) (h : st.map rowSig = st'.map rowSig) :
    st.map rowKey = st'.map rowKey := by
  have hk : ∀ (l : Store), l.map rowKey = (l.map rowSig).map (fun p => (p.1, p.2.2)) := by
    intro l
    rw [List.map_map]
    apply List.map_congr_left
    intro x _
    rfl
  rw [hk, hk, h]

lemma keysNodup_congr_sig (st1 st2 : Store) (h : st1.map rowSig = st2.map rowSig) :
    keysNodup st1 ↔ keysNodup st2 := by
  unfold keysNodup
  rw [sigmap_keymap st1 st2 h]

lemma get_map_aux {α β : Type} (f : α → β) (l : List α) (n : Nat)
    (h1 : n < l.length) (h2 : n < (l.map f).length) :
    (l.map f).get ⟨n, h2⟩ = f (l.get ⟨n, h1⟩) := by
  rw [List.get_eq_getElem, List.get_eq_getElem, List.getElem_map]

/-- The fixed web base used to construct chapter links in both cogs. -/
def WEB_BASE : String := "https://comick.dev"

namespace Tracking

/-- Retry loop body of `AddManhwaComick.fetch_json`
(`for attempt in range(1, retries + 2)`).  Arguments: attempts remaining after
the current one, the 1-based attempt counter, and the count of 1-second sleeps
performed so far.  Returns the decoded JSON (or `None`), the number of the
attempt on which the loop stopped, and the total sleep units.  Every exception
branch of the source is caught inside the loop, which is why the embedding is
a total function into `Option`. -/
def fetchGo {α : Type} (oracle : Nat → FetchAttempt α) :
    Nat → Nat → Nat → Option α × Nat × Nat
  | remaining, attempt, sleeps =>
    match oracle attempt with
    | FetchAttempt.ok j => (some j, attempt, sleeps)
    | _ =>
      match remaining with
      | 0 => (none, attempt, sleeps)
      | n + 1 => fetchGo oracle n (attempt + 1) (sleeps + 1)

/-- `AddManhwaComick.fetch_json` at its default `retries = 2` (the only value
used): up to three attempts, `asyncio.sleep(1)` between consecutive ones.  The
`if not self.session: return None` guard is outside the modelled loop. -/
def fetch_json {α : Type} (oracle : Nat → FetchAttempt α) : Option α × Nat × Nat :=
  fetchGo oracle 2 1 0

/-- Decoded `comic` object of `GET /v1.0/comic/SLUG`.  `hid` is
`comic_obj.get("hid")` with `none` also covering the falsy values rejected by
`if not hid`; `cover` is `comic_obj.get("cover_url") or comic_obj.get("cover")`. -/
structure TComic where
  hid : Option String
  cover : Option String
deriving DecidableEq

/-- One entry of the `GET /v1.0/search` response array; `slug` is
`top.get("slug")`, with `none` also covering the falsy values rejected by
`if not new_slug`. -/
structure TSearchRes where
  slug : Option String
deriving DecidableEq

/-- One entry of `chapters` in `GET /v1.0/comic/HID/chapters`.  `chap` is the
already-coerced value of
`float(latest.get("chap") or latest.get("chapter") or 0)` with the
`except`-default `0.0`, so it is always defined.  `title` is
`latest.get("title", "")`; `hid` is `latest.get("hid") or latest.get("id") or ""`. -/
structure TChapter where
  chap : ℚ
  title : String
  hid : String
deriving DecidableEq

/-- Environment of one scheduled pass: the upstream API and the failure points
of the database.  For each endpoint `none` models a `fetch_json` failure, a
falsy body, or a missing top-level key — cases the source guards merge.
`dbFail` says whether the row-level `UPDATE ... WHERE user_id = ? AND
manhwa_slug = ?` raises; `initReadFails` whether the initial `SELECT` of the
whole table raises. -/
structure TEnv where
  comicResp : String → Option TComic
  searchResp : String → Option (List TSearchRes)
  chaptersResp : String → Option (List TChapter)
  dbFail : Nat → String → Bool
  initReadFails : Bool

/-- Result dict of `AddManhwaComick.get_latest_chapter`. -/
structure TLatest where
  title : String
  slug : String
  chapter : ℚ
  chapterTitle : String
  link : String
  cover : Option String
deriving DecidableEq

/-- `AddManhwaComick.search_slug`: top search result's slug, `none` when the
search response is falsy (`if not data`) or the top result has no slug (the
caller's `if not new_slug`). -/
def search_slug (env : TEnv) (title : String) : Option String :=
  match env.searchResp title with
  | some (top :: _) => top.slug
  | _ => none

/-- Tail of `AddManhwaComick.get_latest_chapter` once a comic object is in
hand: extract `hid`, list its chapters (`limit = 1`), and build the result
dict; the link is constructed from the resolved slug and the chapter hid. -/
def latestFromComic (env : TEnv) (title slug : String) (comic : TComic) :
    Option TLatest :=
  match comic.hid with
  | none => none
  | some hid =>
    match env.chaptersResp hid with
    | some (ch :: _) =>
      some { title := title, slug := slug, chapter := ch.chap,
             chapterTitle := ch.title,
             link := WEB_BASE ++ "/comic/" ++ slug ++ "/chapter/" ++ ch.hid,
             cover := comic.cover }
    | _ => none

/-- `AddManhwaComick.get_latest_chapter`: try the stored slug's comic detail;
on failure fall back to `search_slug` and re-fetch the detail under the new
slug; then read the latest chapter. -/
def get_latest_chapter (env : TEnv) (title slug : String) : Option TLatest :=
  match env.comicResp slug with
  | some comic => latestFromComic env title slug comic
  | none =>
    match search_slug env title with
    | none => none
    | some newSlug =>
      match env.comicResp newSlug with
      | some comic => latestFromComic env title newSlug comic
      | none => none

/-- Decision taken for one row of the scheduled loop: the fetched latest
chapter when the lookup succeeded and
`latest_chapter_num > (latest_notified or 0)` holds, else `none`.  Stored
values are always numeric in the model (the schema inserts `0`), so the
`or 0` null-guard is the identity. -/
def trackDecide (env : TEnv) (r : Row) : Option TLatest :=
  match get_latest_chapter env r.title r.slug with
  | none => none
  | some info => if r.latest < info.chapter then some info else none

/-- The `user_updates` entry the scheduled loop records for a row (appended
before the row's `UPDATE` runs). -/
def trackEntry (env : TEnv) (r : Row) : Option (Nat × TLatest) :=
  (trackDecide env r).map (fun i => (r.user, i))

/-- The row-level `UPDATE chapter_tracking SET latest_chapter_notified = ?,
last_notified_time = CURRENT_TIMESTAMP WHERE user_id = ? AND manhwa_slug = ?`:
rewrites every matching row; the stored slug is not touched. -/
def applySlugUpdate (st : Store) (u : Nat) (slug : String) (c : ℚ) (now : Nat) :
    Store :=
  st.map (fun x =>
    if x.user = u ∧ x.slug = slug then { x with latest := c, time := now } else x)

/-- The `for user_id, manhwa_title, manhwa_slug, latest_notified in rows` loop
of `_chapter_check_loop`: iterates the snapshot read at the start while
threading the live table.  A row whose lookup failed is skipped; a fired row
first records its update entry, then attempts its `UPDATE` — if that raises
(`env.dbFail`), the per-row `except` swallows it and the loop continues. -/
def trackGo (env : TEnv) (now : Nat) :
    List Row → Store → List (Nat × TLatest) → Store × List (Nat × TLatest)
  | [], st, ups => (st, ups)
  | r :: rs, st, ups =>
    match trackDecide env r with
    | none => trackGo env now rs st ups
    | some info =>
      if env.dbFail r.user r.slug then
        trackGo env now rs st (ups ++ [(r.user, info)])
      else
        trackGo env now rs (applySlugUpdate st r.user r.slug info.chapter now)
          (ups ++ [(r.user, info)])

/-- The row-processing phase of `_chapter_check_loop`: read the snapshot, then
run the loop over it. -/
def chapter_check_pass (env : TEnv) (now : Nat) (st : Store) :
    Store × List (Nat × TLatest) :=
  trackGo env now st st []

/-- `_chapter_check_loop` up to the DM phase, including the outer `except`: a
failing initial `SELECT` aborts the whole pass (nothing read, nothing
written). -/
def chapter_check_loop (env : TEnv) (now : Nat) (st : Store) :
    Store × List (Nat × TLatest) :=
  if env.initReadFails then (st, []) else chapter_check_pass env now st

/-- Delivery oracle: whether `fetch_user` + `user.send` succeeds for a user. -/
structure NotifyEnv where
  deliverOk : Nat → Bool

/-- Users that own at least one pending update, in first-appearance order,
mirroring insertion order of the `user_updates` dict. -/
def userIds (ups : List (Nat × TLatest)) : List Nat :=
  (ups.map Prod.fst).dedup

/-- The DM fan-out of `_chapter_check_loop`: one delivery attempt per user
with pending updates; a failed send is caught and logged. -/
def sendDMs (nenv : NotifyEnv) (ups : List (Nat × TLatest)) : List (Nat × Bool) :=
  (userIds ups).map (fun u => (u, nenv.deliverOk u))

/-- A whole scheduled sweep: check pass (with its store writes) followed by
the DM fan-out. -/
def scheduled_sweep (env : TEnv) (nenv : NotifyEnv) (now : Nat) (st : Store) :
    Store × List (Nat × Bool) :=
  ((chapter_check_loop env now st).1, sendDMs nenv (chapter_check_loop env now st).2)

/-! Characterisation of the scheduled pass. -/

/-- Store component of the scheduled loop in isolation. -/
def trackStore (env : TEnv) (now : Nat) : List Row → Store → Store
  | [], st => st
  | r :: rs, st =>
    match trackDecide env r with
    | none => trackStore env now rs st
    | some info =>
      if env.dbFail r.user r.slug then trackStore env now rs st
      else trackStore env now rs (applySlugUpdate st r.user r.slug info.chapter now)

lemma trackGo_eq (env : TEnv) (now : Nat) :
    ∀ (rows : List Row) (st : Store) (ups : List (Nat × TLatest)),
      trackGo env now rows st ups =
        (trackStore env now rows st, ups ++ rows.filterMap (trackEntry env)) := by
  intro rows
  induction rows with
  | nil => intro st ups; simp [trackGo, trackStore]
  | cons r rs ih =>
    intro st ups
    cases h : trackDecide env r with
    | none => simp [trackGo, trackStore, trackEntry, h, ih]
    | some info =>
      cases hdb : env.dbFail r.user r.slug <;>
        simp [trackGo, trackStore, trackEntry, h, hdb, ih]

lemma chapter_check_pass_eq (env : TEnv) (now : Nat) (st : Store) :
    chapter_check_pass env now st =
      (trackStore env now st st, st.filterMap (trackEntry env)) := by
  simp [chapter_check_pass, trackGo_eq]

/-- Effect of processing one snapshot row on one table row. -/
def applyOneFn (env : TEnv) (now : Nat) (r y : Row) : Row :=
  match trackDecide env r with
  | none => y
  | some info =>
    if env.dbFail r.user r.slug then y
    else if y.user = r.user ∧ y.slug = r.slug then
      { y with latest := info.chapter, time := now }
    else y

/-- Accumulated effect of a whole snapshot on one table row. -/
def rowsEffect (env : TEnv) (now : Nat) (rows : List Row) (x : Row) : Row :=
  rows.foldl (fun y r => applyOneFn env now r y) x

lemma rowsEffect_cons (env : TEnv) (now : Nat) (r : Row) (rs : List Row) (x : Row) :
    rowsEffect env now (r :: rs) x = rowsEffect env now rs (applyOneFn env now r x) :=
  rfl

lemma applySlugUpdate_eq_map (st : Store) (u : Nat) (slug : String) (c : ℚ)
    (now : Nat) (env : TEnv) (r : Row) (h : trackDecide env r = some info)
    (hdb : env.dbFail r.user r.slug = false) (hu : r.user = u) (hs : r.slug = slug)
    (hc : info.chapter = c) :
    applySlugUpdate st u slug c now = st.map (applyOneFn env now r) := by
  subst hu hs hc
  unfold applySlugUpdate applyOneFn
  simp [h, hdb]

lemma trackStore_map (env : TEnv) (now : Nat) :
    ∀ (rows : List Row) (st : Store),
      trackStore env now rows st = st.map (rowsEffect env now rows) := by
  intro rows
  induction rows with
  | nil =>
    intro st
    have hid : List.map (rowsEffect env now []) st = st := by
      rw [show rowsEffect env now [] = fun x => x from funext fun x => rfl]
      exact List.map_id' st
    rw [hid]
    rfl
  | cons r rs ih =>
    intro st
    cases h : trackDecide env r with
    | none =>
      have hfn : ∀ x, applyOneFn env now r x = x := by
        intro x; unfold applyOneFn; simp [h]
      simp only [trackStore, h]
      rw [ih st]
      apply List.map_congr_left
      intro x _
      rw [rowsEffect_cons, hfn]
    | some info =>
      cases hdb : env.dbFail r.user r.slug with
      | true =>
        have hfn : ∀ x, applyOneFn env now r x = x := by
          intro x; unfold applyOneFn; simp [h, hdb]
        simp only [trackStore, h, hdb, if_true]
        rw [ih st]
        apply List.map_congr_left
        intro x _
        rw [rowsEffect_cons, hfn]
      | false =>
        simp only [trackStore, h, hdb, Bool.false_eq_true, if_false]
        rw [applySlugUpdate_eq_map st r.user r.slug info.chapter now env r h hdb
          rfl rfl rfl]
        rw [ih]
        rw [List.map_map]
        apply List.map_congr_left
        intro x _
        rfl

lemma applyOneFn_sig (env : TEnv) (now : Nat) (r y : Row) :
    rowSig (applyOneFn env now r y) = rowSig y := by
  unfold applyOneFn
  cases trackDecide env r with
  | none => rfl
  | some info =>
    cases env.dbFail r.user r.slug with
    | true => rfl
    | false =>
      by_cases hk : y.user = r.user ∧ y.slug = r.slug <;> simp [hk, rowSig]

lemma rowsEffect_sig (env : TEnv) (now : Nat) :
    ∀ (rows : List Row) (x : Row), rowSig (rowsEffect env now rows x) = rowSig x := by
  intro rows
  induction rows with
  | nil => intro x; rfl
  | cons r rs ih =>
    intro x
    rw [rowsEffect_cons, ih, applyOneFn_sig]

/-- Net effect of a whole pass on one row under unique keys: if the row's own
lookup fired and its `UPDATE` did not raise, the stored chapter number and
timestamp are replaced; otherwise the row is untouched. -/
def updFn (env : TEnv) (now : Nat) (x : Row) : Row :=
  match trackDecide env x with
  | none => x
  | some info =>
    if env.dbFail x.user x.slug then x
    else { x with latest := info.chapter, time := now }

lemma updFn_sig (env : TEnv) (now : Nat) (x : Row) :
    rowSig (updFn env now x) = rowSig x := by
  unfold updFn
  cases trackDecide env x with
  | none => rfl
  | some info =>
    cases env.dbFail x.user x.slug with
    | true => rfl
    | false => simp [rowSig]

lemma applyOneFn_self (env : TEnv) (now : Nat) (x : Row) :
    applyOneFn env now x x = updFn env now x := by
  unfold applyOneFn updFn
  cases trackDecide env x with
  | none => rfl
  | some info =>
    cases env.dbFail x.user x.slug with
    | true => rfl
    | false => simp

lemma applyOneFn_of_key_ne (env : TEnv) (now : Nat) (r y : Row)
    (h : rowKey r ≠ rowKey y) : applyOneFn env now r y = y := by
  unfold applyOneFn
  cases trackDecide env r with
  | none => rfl
  | some info =>
    cases env.dbFail r.user r.slug with
    | true => rfl
    | false =>
      have hk : ¬(y.user = r.user ∧ y.slug = r.slug) := by
        rintro ⟨h1, h2⟩
        exact h (by simp [rowKey, h1, h2])
      simp [hk]

lemma rowsEffect_of_no_key (env : TEnv) (now : Nat) :
    ∀ (rows : List Row) (x : Row),
      (∀ r ∈ rows, rowKey r ≠ rowKey x) → rowsEffect env now rows x = x := by
  intro rows
  induction rows with
  | nil => intro x _; rfl
  | cons r rs ih =>
    intro x h
    rw [rowsEffect_cons, applyOneFn_of_key_ne env now r x (h r (by simp)), ih]
    intro r' hr'
    exact h r' (by simp [hr'])

lemma rowsEffect_unique (env : TEnv) (now : Nat) :
    ∀ (rows : List Row) (x : Row), (rows.map rowKey).Nodup → x ∈ rows →
      rowsEffect env now rows x = updFn env now x := by
  intro rows
  induction rows with
  | nil => intro x _ hx; exact absurd hx (List.not_mem_nil x)
  | cons r rs ih =>
    intro x hnd hx
    have hnd' : (rs.map rowKey).Nodup := (List.nodup_cons.mp hnd).2
    have hhead : rowKey r ∉ rs.map rowKey := (List.nodup_cons.mp hnd).1
    rcases List.mem_cons.mp hx with rfl | hx'
    · rw [rowsEffect_cons, applyOneFn_self]
      apply rowsEffect_of_no_key
      intro r' hr' hkey
      apply hhead
      have : rowKey (updFn env now x) = rowKey x := by
        have h1 := updFn_sig env now x
        unfold rowSig at h1
        unfold rowKey
        rw [Prod.ext_iff] at h1
        simp only [Prod.mk.injEq] at h1
        exact Prod.ext h1.1 h1.2.2
      rw [this] at hkey
      rw [← hkey]
      exact List.mem_map_of_mem rowKey hr'
    · have hne : rowKey r ≠ rowKey x := by
        intro hkey
        exact hhead (hkey ▸ List.mem_map_of_mem rowKey hx')
      rw [rowsEffect_cons, applyOneFn_of_key_ne env now r x hne, ih x hnd' hx']

lemma trackStore_char (env : TEnv) (now : Nat) (st : Store) (hnd : keysNodup st) :
    trackStore env now st st = st.map (updFn env now) := by
  rw [trackStore_map]
  apply List.map_congr_left
  intro x hx
  exact rowsEffect_unique env now st x hnd hx

lemma trackStore_sigmap (env : TEnv) (now : Nat) (rows : List Row) (st : Store) :
    (trackStore env now rows st).map rowSig = st.map rowSig := by
  rw [trackStore_map, List.map_map]
  apply List.map_congr_left
  intro x _
  exact rowsEffect_sig env now rows x

lemma pass_keysNodup (env : TEnv) (now : Nat) (st : Store) (hnd : keysNodup st) :
    keysNodup (chapter_check_pass env now st).1 := by
  rw [chapter_check_pass_eq]
  unfold keysNodup at hnd ⊢
  rw [sigmap_keymap (trackStore env now st st) st (trackStore_sigmap env now st st)]
  exact hnd

lemma trackDecide_some_elim (env : TEnv) (x : Row) (info : TLatest)
    (h : trackDecide env x = some info) :
    get_latest_chapter env x.title x.slug = some info ∧ x.latest < info.chapter := by
  unfold trackDecide at h
  cases k : get_latest_chapter env x.title x.slug with
  | none => rw [k] at h; simp at h
  | some info2 =>
    rw [k] at h
    simp only at h
    by_cases hlt : x.latest < info2.chapter
    · rw [if_pos hlt] at h
      have heq : info2 = info := Option.some.inj h
      subst heq
      exact ⟨rfl, hlt⟩
    · rw [if_neg hlt] at h
      simp at h

lemma trackDecide_updFn (env : TEnv) (now : Nat)
    (hdb : ∀ a b, env.dbFail a b = false) (x : Row) :
    trackDecide env (updFn env now x) = none := by
  unfold updFn
  cases h : trackDecide env x with
  | none => exact h
  | some info =>
    rw [hdb x.user x.slug]
    simp only [Bool.false_eq_true, if_false]
    obtain ⟨k, hlt⟩ := trackDecide_some_elim env x info h
    have k2 : get_latest_chapter env
        ({ x with latest := info.chapter, time := now } : Row).title
        ({ x with latest := info.chapter, time := now } : Row).slug = some info := k
    unfold trackDecide
    rw [k2]
    simp

lemma trackGo_skip (env : TEnv) (now : Nat) (r : Row) (rs : List Row) (st : Store)
    (ups : List (Nat × TLatest)) (hd : trackDecide env r = none) :
    trackGo env now (r :: rs) st ups = trackGo env now rs st ups := by
  simp [trackGo, hd]

lemma trackGo_fire (env : TEnv) (now : Nat) (r : Row) (rs : List Row) (st : Store)
    (ups : List (Nat × TLatest)) (info : TLatest) (hd : trackDecide env r = some info)
    (hdb : env.dbFail r.user r.slug = false) :
    trackGo env now (r :: rs) st ups =
      trackGo env now rs (applySlugUpdate st r.user r.slug info.chapter now)
        (ups ++ [(r.user, info)]) := by
  simp [trackGo, hd, hdb]

lemma trackGo_dbfail (env : TEnv) (now : Nat) (r : Row) (rs : List Row) (st : Store)
    (ups : List (Nat × TLatest)) (info : TLatest) (hd : trackDecide env r = some info)
    (hdb : env.dbFail r.user r.slug = true) :
    trackGo env now (r :: rs) st ups = trackGo env now rs st (ups ++ [(r.user, info)]) := by
  simp [trackGo, hd, hdb]

lemma trackDecide_iff (env : TEnv) (r : Row) (info : TLatest)
    (k : get_latest_chapter env r.title r.slug = some info) :
    trackDecide env r = some info ↔ r.latest < info.chapter := by
  constructor
  · intro h
    exact (trackDecide_some_elim env r info h).2
  · intro hlt
    simp [trackDecide, k, hlt]

lemma trackDecide_none_of_ge (env : TEnv) (r : Row) (info : TLatest)
    (k : get_latest_chapter env r.title r.slug = some info)
    (hge : ¬ r.latest < info.chapter) : trackDecide env r = none := by
  simp [trackDecide, k, hge]

lemma trackDecide_none_of_fail (env : TEnv) (r : Row)
    (k : get_latest_chapter env r.title r.slug = none) : trackDecide env r = none := by
  unfold trackDecide
  rw [k]

lemma trackEntry_dbFail_free (env : TEnv) (df : Nat → String → Bool) (r : Row) :
    trackEntry { env with dbFail := df } r = trackEntry env r := rfl

lemma pass_ups (env : TEnv) (now : Nat) (st : Store) :
    (chapter_check_pass env now st).2 = st.filterMap (trackEntry env) := by
  rw [chapter_check_pass_eq]

lemma trackGo_none (env : TEnv) (now : Nat) :
    ∀ (rows : List Row) (st : Store) (ups : List (Nat × TLatest)),
      (∀ r ∈ rows, trackDecide env r = none) →
      trackGo env now rows st ups = (st, ups) := by
  intro rows
  induction rows with
  | nil => intro st ups _; rfl
  | cons r rs ih =>
    intro st ups h
    have hr : trackDecide env r = none := h r (by simp)
    simp only [trackGo, hr]
    exact ih st ups (fun r' hr' => h r' (by simp [hr']))

lemma scheduled_idempotent (env : TEnv) (now now' : Nat) (st : Store)
    (hnd : keysNodup st) (hdb : ∀ a b, env.dbFail a b = false) :
    chapter_check_pass env now' ((chapter_check_pass env now st).1) =
      ((chapter_check_pass env now st).1, []) := by
  have hst1 : (chapter_check_pass env now st).1 = st.map (updFn env now) := by
    rw [chapter_check_pass_eq]
    exact trackStore_char env now st hnd
  rw [hst1]
  unfold chapter_check_pass
  apply trackGo_none
  intro r hr
  rcases List.mem_map.mp hr with ⟨x, _, rfl⟩
  exact trackDecide_updFn env now hdb x

end Tracking

namespace ManualCheck

/-- `ManualCheck.fetch_json`: a single attempt inside one `try`, returning
`None` on a non-200 status or on any exception.  There is no retry loop. -/
def fetch_json {α : Type} (oracle : Nat → FetchAttempt α) : Option α :=
  match oracle 1 with
  | FetchAttempt.ok j => some j
  | _ => none

/-- One entry of `chapters` in `GET /comic/SLUG/chapters`.  `chap` is the
outcome of the caller's guard and coercion (`if not latest["number"]` plus
`float(...)`): `none` whenever `manual_check` would `continue` because the raw
value is missing, falsy, or not float-coercible, otherwise the coerced number.
`title` is `chapter.get("title")`; `hid` is `chapter.get("hid")` as rendered
into the link f-string. -/
structure MChapter where
  chap : Option ℚ
  title : Option String
  hid : String
deriving DecidableEq

/-- One entry of `results` in `GET /search?query=`; `slug` is
`data["results"][0].get("slug")`. -/
structure MSearchRes where
  slug : Option String
deriving DecidableEq

/-- Environment of one on-demand pass: the two endpoints its `fetch_json`
touches.  For either endpoint `none` models a failed fetch, a falsy body, or a
missing `chapters` / `results` key — the guards `if data and "chapters" in
data and len(...) > 0` and its `results` twin treat them identically.
Database failures are not an oracle here: the one modelled database exception
is the `UNIQUE(user_id, manhwa_slug)` violation, which is determined by the
data (see `manualGo`). -/
structure MCEnv where
  chaptersResp : String → Option (List MChapter)
  searchResp : String → Option (List MSearchRes)

/-- `ManualCheck.resolve_slug`: confirm the stored slug by listing one chapter
under it; on anything else fall back to a title search and take the top
result's slug; `none` when that also yields nothing. -/
def resolve_slug (env : MCEnv) (title currentSlug : String) : Option String :=
  match env.chaptersResp currentSlug with
  | some (_ :: _) => some currentSlug
  | _ =>
    match env.searchResp title with
    | some (top :: _) => top.slug
    | _ => none

/-- The HTTP requests `resolve_slug` can issue. -/
inductive ApiCall where
  | chapters (slug : String)
  | search (title : String)
deriving DecidableEq

/-- `resolve_slug` instrumented with the list of requests it makes, in
order. -/
def resolve_slug_trace (env : MCEnv) (title currentSlug : String) :
    Option String × List ApiCall :=
  match env.chaptersResp currentSlug with
  | some (_ :: _) => (some currentSlug, [ApiCall.chapters currentSlug])
  | _ =>
    match env.searchResp title with
    | some (top :: _) =>
      (top.slug, [ApiCall.chapters currentSlug, ApiCall.search title])
    | _ => (none, [ApiCall.chapters currentSlug, ApiCall.search title])

/-- Result dict of `ManualCheck.get_latest_chapter`. -/
structure MLatest where
  number : Option ℚ
  title : Option String
  url : String
deriving DecidableEq

/-- `ManualCheck.get_latest_chapter`: list one chapter under the slug and
build the result dict. -/
def get_latest_chapter (env : MCEnv) (slug : String) : Option MLatest :=
  match env.chaptersResp slug with
  | some (ch :: _) =>
    some { number := ch.chap, title := ch.title,
           url := WEB_BASE ++ "/comic/" ++ slug ++ "/chapter/" ++ ch.hid }
  | _ => none

/-- The fallback branch of `resolve_slug` in isolation: the top search
result's slug, `none` when the search yields nothing usable. -/
def searchTopSlug (env : MCEnv) (title : String) : Option String :=
  match env.searchResp title with
  | some (top :: _) => top.slug
  | _ => none

/-- One entry of the `updates` list `manual_check` accumulates:
`(title, latest_number, latest["title"], latest["url"])`. -/
structure MUpdate where
  title : String
  number : ℚ
  chapterTitle : Option String
  url : String
deriving DecidableEq

/-- Decision taken for one row of `manual_check`: resolve the slug, fetch the
latest chapter, guard and coerce its number, and compare strictly against the
stored value.  `none` exactly when the loop body reaches `continue` or the
`if latest_number > last_notified` test fails; otherwise the resolved slug and
the update entry. -/
def mDecide (env : MCEnv) (r : Row) : Option (String × MUpdate) :=
  match resolve_slug env r.title r.slug with
  | none => none
  | some rslug =>
    match get_latest_chapter env rslug with
    | none => none
    | some latest =>
      match latest.number with
      | none => none
      | some c =>
        if r.latest < c then
          some (rslug, { title := r.title, number := c,
                         chapterTitle := latest.title, url := latest.url })
        else none

/-- The row-level `UPDATE chapter_tracking SET latest_chapter_notified = ?,
manhwa_slug = ?, last_notified_time = CURRENT_TIMESTAMP WHERE user_id = ? AND
manhwa_title = ?`: rewrites every row of the user carrying the title, slug
included. -/
def applyTitleUpdate (st : Store) (u : Nat) (title : String) (c : ℚ)
    (slug : String) (now : Nat) : Store :=
  st.map (fun x =>
    if x.user = u ∧ x.title = title then
      { x with latest := c, slug := slug, time := now }
    else x)

/-- The `SELECT ... WHERE user_id = ?` snapshot the on-demand pass iterates. -/
def rowsForUser (st : Store) (u : Nat) : List Row :=
  st.filter (fun r => decide (r.user = u))

/-- The row loop of `manual_check`.  A row whose decision is `none` is
skipped.  A fired row's `UPDATE` must keep `UNIQUE(user_id, manhwa_slug)`
intact; otherwise sqlite raises `IntegrityError`, the exception leaves the
loop (there is no per-row handler), and the pass ends in the outer `except`
with the shared transaction uncommitted — modelled by `Except.error ()`
(the update entries gathered so far are never sent). -/
def manualGo (env : MCEnv) (now u : Nat) :
    List Row → Store → List MUpdate → Except Unit (List MUpdate × Store)
  | [], st, ups => Except.ok (ups, st)
  | r :: rs, st, ups =>
    match mDecide env r with
    | none => manualGo env now u rs st ups
    | some (rslug, upd) =>
      if keysNodup (applyTitleUpdate st u r.title upd.number rslug now) then
        manualGo env now u rs
          (applyTitleUpdate st u r.title upd.number rslug now) (ups ++ [upd])
      else Except.error ()

/-- `ManualCheck.manual_check` for one user: snapshot the user's rows, then
run the loop. -/
def manual_check (env : MCEnv) (now u : Nat) (st : Store) :
    Except Unit (List MUpdate × Store) :=
  manualGo env now u (rowsForUser st u) st []

/-- What the pass leaves durable: on success the accumulated updates are
reported and the single `commit` makes the writes stick; on an exception the
connection closes before the commit, every write of the pass is rolled back,
and the user is shown a failure message with no update list. -/
def manual_check_committed (env : MCEnv) (now u : Nat) (st : Store) :
    List MUpdate × Store :=
  match manual_check env now u st with
  | Except.ok p => p
  | Except.error _ => ([], st)

/-- Whether the pass ended in the outer `except` handler. -/
def mErrored {β : Type} : Except Unit β → Bool
  | Except.error _ => true
  | Except.ok _ => false

/-! Characterisation of the on-demand pass. -/

/-- Net effect of a committed pass on one of the user's rows: a fired row
gets the new number, the resolved slug and the fresh timestamp; any other row
is untouched. -/
def mWrite (env : MCEnv) (now : Nat) (a : Row) : Row :=
  match mDecide env a with
  | none => a
  | some (rslug, upd) => { a with latest := upd.number, slug := rslug, time := now }

lemma mWrite_user (env : MCEnv) (now : Nat) (a : Row) :
    (mWrite env now a).user = a.user := by
  unfold mWrite
  cases mDecide env a with
  | none => rfl
  | some p => cases p; rfl

lemma mWrite_title (env : MCEnv) (now : Nat) (a : Row) :
    (mWrite env now a).title = a.title := by
  unfold mWrite
  cases mDecide env a with
  | none => rfl
  | some p => cases p; rfl

lemma mDecide_some_elim (env : MCEnv) (r : Row) (rslug : String) (upd : MUpdate)
    (h : mDecide env r = some (rslug, upd)) :
    resolve_slug env r.title r.slug = some rslug ∧
      get_latest_chapter env rslug =
        some { number := some upd.number, title := upd.chapterTitle, url := upd.url } ∧
      r.latest < upd.number ∧ upd.title = r.title := by
  unfold mDecide at h
  cases hres : resolve_slug env r.title r.slug with
  | none => rw [hres] at h; simp at h
  | some rs =>
    rw [hres] at h
    simp only at h
    cases hlat : get_latest_chapter env rs with
    | none => rw [hlat] at h; simp at h
    | some lat =>
      obtain ⟨num, ctitle, curl⟩ := lat
      rw [hlat] at h
      simp only at h
      cases num with
      | none => simp at h
      | some c =>
        simp only at h
        by_cases hlt : r.latest < c
        · rw [if_pos hlt] at h
          have hp := Option.some.inj h
          rw [Prod.ext_iff] at hp
          obtain ⟨hrs, hupd⟩ := hp
          simp only at hrs hupd
          subst hrs
          subst hupd
          exact ⟨rfl, hlat, hlt, rfl⟩
        · rw [if_neg hlt] at h
          simp at h

lemma get_latest_some_chapters (env : MCEnv) (s : String) (lat : MLatest)
    (h : get_latest_chapter env s = some lat) :
    ∃ ch tl, env.chaptersResp s = some (ch :: tl) := by
  unfold get_latest_chapter at h
  cases k : env.chaptersResp s with
  | none => rw [k] at h; simp at h
  | some l =>
    cases l with
    | nil => rw [k] at h; simp at h
    | cons ch tl => exact ⟨ch, tl, rfl⟩

/-- A row the pass has just written never fires again in a pass run against
the same environment: the resolved slug gets confirmed by its own chapter
listing and the stored number now equals the fetched one. -/
lemma mDecide_mWrite_none (env : MCEnv) (now : Nat) (a : Row) :
    mDecide env (mWrite env now a) = none := by
  unfold mWrite
  cases h : mDecide env a with
  | none => exact h
  | some p =>
    obtain ⟨rslug, upd⟩ := p
    obtain ⟨hres, hlat, hlt, hti⟩ := mDecide_some_elim env a rslug upd h
    obtain ⟨ch, tl, hch⟩ := get_latest_some_chapters env rslug _ hlat
    have hres2 : resolve_slug env a.title rslug = some rslug := by
      unfold resolve_slug
      rw [hch]
    show mDecide env { a with latest := upd.number, slug := rslug, time := now } = none
    unfold mDecide
    simp only [hres2, hlat]
    simp

lemma manualGo_skip (env : MCEnv) (now u : Nat) (r : Row) (rs : List Row)
    (st : Store) (ups : List MUpdate) (hd : mDecide env r = none) :
    manualGo env now u (r :: rs) st ups = manualGo env now u rs st ups := by
  simp [manualGo, hd]

lemma manualGo_fire (env : MCEnv) (now u : Nat) (r : Row) (rs : List Row)
    (st : Store) (ups : List MUpdate) (rslug : String) (upd : MUpdate)
    (hd : mDecide env r = some (rslug, upd))
    (hk : keysNodup (applyTitleUpdate st u r.title upd.number rslug now)) :
    manualGo env now u (r :: rs) st ups =
      manualGo env now u rs (applyTitleUpdate st u r.title upd.number rslug now)
        (ups ++ [upd]) := by
  simp [manualGo, hd, hk]

lemma manualGo_conflict (env : MCEnv) (now u : Nat) (r : Row) (rs : List Row)
    (st : Store) (ups : List MUpdate) (rslug : String) (upd : MUpdate)
    (hd : mDecide env r = some (rslug, upd))
    (hk : ¬ keysNodup (applyTitleUpdate st u r.title upd.number rslug now)) :
    manualGo env now u (r :: rs) st ups = Except.error () := by
  simp [manualGo, hd, hk]

lemma manualGo_none (env : MCEnv) (now u : Nat) :
    ∀ (rs : List Row) (st : Store) (ups : List MUpdate),
      (∀ r ∈ rs, mDecide env r = none) →
      manualGo env now u rs st ups = Except.ok (ups, st) := by
  intro rs
  induction rs with
  | nil => intro st ups _; rfl
  | cons r rs' ih =>
    intro st ups h
    rw [manualGo_skip env now u r rs' st ups (h r (by simp))]
    exact ih st ups (fun r' hr' => h r' (by simp [hr']))

/-- The title-keyed `UPDATE` hits every row of the user with that title; as
soon as two rows match, both end up with the same `(user_id, manhwa_slug)`
key and the statement violates the UNIQUE constraint. -/
lemma applyTitleUpdate_conflict (st : Store) (u : Nat) (title : String) (c : ℚ)
    (slug : String) (now : Nat) (i j : Nat) (hi : i < st.length)
    (hj : j < st.length) (hij : i ≠ j)
    (hui : (st.get ⟨i, hi⟩).user = u) (huj : (st.get ⟨j, hj⟩).user = u)
    (hti : (st.get ⟨i, hi⟩).title = title) (htj : (st.get ⟨j, hj⟩).title = title) :
    ¬ keysNodup (applyTitleUpdate st u title c slug now) := by
  intro hnd
  have hklen : ((applyTitleUpdate st u title c slug now).map rowKey).length =
      st.length := by
    unfold applyTitleUpdate
    rw [List.length_map, List.length_map]
  have hkey : ∀ (n : Nat) (hn : n < st.length)
      (hn2 : n < ((applyTitleUpdate st u title c slug now).map rowKey).length),
      (st.get ⟨n, hn⟩).user = u → (st.get ⟨n, hn⟩).title = title →
      ((applyTitleUpdate st u title c slug now).map rowKey).get ⟨n, hn2⟩ = (u, slug) := by
    intro n hn hn2 hu ht
    rw [List.get_eq_getElem] at hu ht
    rw [List.get_eq_getElem]
    simp only [applyTitleUpdate, List.getElem_map]
    rw [if_pos ⟨hu, ht⟩]
    simp [rowKey, hu]
  have hinj := List.nodup_iff_injective_get.mp hnd
  have hip : i < ((applyTitleUpdate st u title c slug now).map rowKey).length := by
    rw [hklen]; exact hi
  have hjp : j < ((applyTitleUpdate st u title c slug now).map rowKey).length := by
    rw [hklen]; exact hj
  have heq : (⟨i, hip⟩ : Fin ((applyTitleUpdate st u title c slug now).map rowKey).length) =
      ⟨j, hjp⟩ := by
    apply hinj
    show ((applyTitleUpdate st u title c slug now).map rowKey).get ⟨i, hip⟩ =
      ((applyTitleUpdate st u title c slug now).map rowKey).get ⟨j, hjp⟩
    exact (hkey i hi hip hui hti).trans (hkey j hj hjp huj htj).symm
  exact hij (congrArg Fin.val heq)

/-- Invariant of the on-demand row loop, relating the snapshot table to the
live table while `rs` is the suffix of the user's rows still to process: a
row of the user already handled carries its net effect `mWrite`; every other
row is untouched. -/
def passedRow (env : MCEnv) (now u : Nat) (rs : List Row) (a b : Row) : Prop :=
  (a.user = u → a ∉ rs → b = mWrite env now a) ∧ ((a.user = u → a ∈ rs) → b = a)

lemma passedRow_shrink_none (env : MCEnv) (now u : Nat) (r : Row) (rs : List Row)
    (hd : mDecide env r = none) (a b : Row)
    (h : passedRow env now u (r :: rs) a b) : passedRow env now u rs a b := by
  constructor
  · intro hu hnot
    by_cases har : a = r
    · have hb : b = a := h.2 (fun _ => by simp [har])
      rw [hb, har]
      simp [mWrite, hd]
    · exact h.1 hu (by
        intro hmem
        rcases List.mem_cons.mp hmem with h1 | h2
        · exact har h1
        · exact hnot h2)
  · intro himp
    exact h.2 (fun hu => List.mem_cons_of_mem r (himp hu))

lemma passedRow_step_fire (env : MCEnv) (now u : Nat) (st0 : Store)
    (r : Row) (rs : List Row) (hnd : (r :: rs).Nodup)
    (hmem : r ∈ st0) (hru : r.user = u) (rslug : String) (upd : MUpdate)
    (hd : mDecide env r = some (rslug, upd)) (st : Store)
    (hF : List.Forall₂ (passedRow env now u (r :: rs)) st0 st)
    (hk : keysNodup (applyTitleUpdate st u r.title upd.number rslug now)) :
    List.Forall₂ (passedRow env now u rs) st0
      (applyTitleUpdate st u r.title upd.number rslug now) := by
  have hlen0 : st0.length = st.length := hF.length_eq
  have hlen' : (applyTitleUpdate st u r.title upd.number rslug now).length = st.length :=
    List.length_map st _
  obtain ⟨pf, hpr⟩ := List.mem_iff_get.mp hmem
  have hpb : st.get ⟨pf.1, hlen0 ▸ pf.2⟩ = r := by
    have h2 := hF.get pf.2 (hlen0 ▸ pf.2)
    rw [hpr] at h2
    exact h2.2 (fun _ => List.mem_cons_self r rs)
  apply List.forall₂_of_length_eq_of_get
  · rw [hlen0]; exact hlen'.symm
  intro n h1 h2
  have hn : n < st.length := hlen0 ▸ h1
  have hab := hF.get h1 hn
  have hget' : (applyTitleUpdate st u r.title upd.number rslug now).get ⟨n, h2⟩ =
      (fun x => if x.user = u ∧ x.title = r.title then
        { x with latest := upd.number, slug := rslug, time := now } else x)
        (st.get ⟨n, hn⟩) :=
    get_map_aux _ st n hn h2
  by_cases hcond : (st.get ⟨n, hn⟩).user = u ∧ (st.get ⟨n, hn⟩).title = r.title
  · -- the matched position: by uniqueness it is the snapshot position of r
    have hbb : (applyTitleUpdate st u r.title upd.number rslug now).get ⟨n, h2⟩ =
        { st.get ⟨n, hn⟩ with latest := upd.number, slug := rslug, time := now } := by
      rw [hget']
      simp only [if_pos hcond]
    have hnp : n = pf.1 := by
      by_contra hne
      exact applyTitleUpdate_conflict st u r.title upd.number rslug now n pf.1 hn
        (hlen0 ▸ pf.2) hne hcond.1 (by rw [hpb]; exact hru) hcond.2 (by rw [hpb]) hk
    have har : st0.get ⟨n, h1⟩ = r := by
      have hfe : (⟨n, h1⟩ : Fin st0.length) = pf := Fin.ext hnp
      rw [hfe, hpr]
    have hba : st.get ⟨n, hn⟩ = r := by
      have hx := hab.2 (fun _ => by rw [har]; exact List.mem_cons_self r rs)
      rw [hx, har]
    constructor
    · intro _ _
      rw [hbb, hba, har]
      simp [mWrite, hd]
    · intro himp
      exfalso
      have hmem2 : st0.get ⟨n, h1⟩ ∈ rs := himp (by rw [har]; exact hru)
      rw [har] at hmem2
      exact (List.nodup_cons.mp hnd).1 hmem2
  · -- untouched position
    have hbb : (applyTitleUpdate st u r.title upd.number rslug now).get ⟨n, h2⟩ =
        st.get ⟨n, hn⟩ := by
      rw [hget']
      simp only [if_neg hcond]
    rw [hbb]
    constructor
    · intro hu hnot
      by_cases har : st0.get ⟨n, h1⟩ = r
      · exfalso
        have hba : st.get ⟨n, hn⟩ = st0.get ⟨n, h1⟩ :=
          hab.2 (fun _ => by rw [har]; exact List.mem_cons_self r rs)
        apply hcond
        rw [hba, har]
        exact ⟨hru, rfl⟩
      · exact hab.1 hu (by
          intro hmem2
          rcases List.mem_cons.mp hmem2 with h3 | h4
          · exact har h3
          · exact hnot h4)
    · intro himp
      exact hab.2 (fun hu => List.mem_cons_of_mem r (himp hu))

/-- Running the row loop to a successful end turns the invariant for the full
worklist into the final invariant, keeping the UNIQUE constraint intact. -/
lemma manualGo_ok_inv (env : MCEnv) (now u : Nat) (st0 : Store) :
    ∀ (rs : List Row) (st : Store) (ups ups2 : List MUpdate) (st2 : Store),
      rs.Nodup → (∀ x ∈ rs, x ∈ st0 ∧ x.user = u) →
      List.Forall₂ (passedRow env now u rs) st0 st → keysNodup st →
      manualGo env now u rs st ups = Except.ok (ups2, st2) →
      List.Forall₂ (passedRow env now u ([] : List Row)) st0 st2 ∧ keysNodup st2 := by
  intro rs
  induction rs with
  | nil =>
    intro st ups ups2 st2 _ _ hF hk hrun
    have hpair : (ups, st) = (ups2, st2) := Except.ok.inj hrun
    have hst : st = st2 := congrArg Prod.snd hpair
    rw [← hst]
    exact ⟨hF, hk⟩
  | cons r rs' ih =>
    intro st ups ups2 st2 hnd hmem hF hk hrun
    have hndr : rs'.Nodup := (List.nodup_cons.mp hnd).2
    have hmem' : ∀ x ∈ rs', x ∈ st0 ∧ x.user = u := fun x hx =>
      hmem x (List.mem_cons_of_mem r hx)
    cases hd : mDecide env r with
    | none =>
      rw [manualGo_skip env now u r rs' st ups hd] at hrun
      exact ih st ups ups2 st2 hndr hmem'
        (hF.imp (passedRow_shrink_none env now u r rs' hd)) hk hrun
    | some p =>
      obtain ⟨rslug, upd⟩ := p
      by_cases hk2 : keysNodup (applyTitleUpdate st u r.title upd.number rslug now)
      · rw [manualGo_fire env now u r rs' st ups rslug upd hd hk2] at hrun
        have hF' := passedRow_step_fire env now u st0 r rs' hnd
          (hmem r (List.mem_cons_self r rs')).1 (hmem r (List.mem_cons_self r rs')).2
          rslug upd hd st hF hk2
        exact ih _ _ _ _ hndr hmem' hF' hk2 hrun
      · rw [manualGo_conflict env now u r rs' st ups rslug upd hd hk2] at hrun
        exact absurd hrun (by simp)

/-- A successful on-demand pass leaves the table related to its snapshot by
`mWrite` on the user's rows, identity elsewhere, and preserves the UNIQUE
constraint. -/
lemma manual_check_inv (env : MCEnv) (now u : Nat) (st : Store)
    (hnd : keysNodup st) (ups1 : List MUpdate) (st1 : Store)
    (h : manual_check env now u st = Except.ok (ups1, st1)) :
    List.Forall₂ (passedRow env now u ([] : List Row)) st st1 ∧ keysNodup st1 := by
  have hstnd : st.Nodup := List.Nodup.of_map rowKey hnd
  apply manualGo_ok_inv env now u st (rowsForUser st u) st [] ups1 st1
  · exact hstnd.filter _
  · intro x hx
    have hx2 := List.mem_filter.mp hx
    exact ⟨hx2.1, by simpa using hx2.2⟩
  · rw [List.forall₂_same]
    intro a ha
    constructor
    · intro hu hnot
      exact absurd (List.mem_filter.mpr ⟨ha, by simpa using hu⟩) hnot
    · intro _
      rfl
  · exact hnd
  · exact h

lemma passed_decide_vanish (env : MCEnv) (now u : Nat) (st0 st2 : Store)
    (hF : List.Forall₂ (passedRow env now u ([] : List Row)) st0 st2) :
    ∀ b ∈ st2, b.user = u → mDecide env b = none := by
  intro b hb hbu
  obtain ⟨nf, hbn⟩ := List.mem_iff_get.mp hb
  have h1 : nf.1 < st0.length := by
    rw [hF.length_eq]; exact nf.2
  have hab := hF.get h1 nf.2
  by_cases hu : (st0.get ⟨nf.1, h1⟩).user = u
  · have hbw := hab.1 hu (List.not_mem_nil _)
    have hbn2 : b = st2.get ⟨nf.1, nf.2⟩ := by rw [← hbn]
    rw [hbn2, hbw]
    exact mDecide_mWrite_none env now (st0.get ⟨nf.1, h1⟩)
  · exfalso
    apply hu
    have hba := hab.2 (fun h2 => absurd h2 hu)
    have hbn2 : b = st2.get ⟨nf.1, nf.2⟩ := by rw [← hbn]
    rw [← hba, ← hbn2]
    exact hbu

/-- Second run of a successful pass against the same environment: nothing
fires, nothing changes. -/
lemma manual_idempotent_ok (env : MCEnv) (now now' u : Nat) (st : Store)
    (ups1 : List MUpdate) (st1 : Store) (hnd : keysNodup st)
    (h : manual_check env now u st = Except.ok (ups1, st1)) :
    manual_check env now' u st1 = Except.ok ([], st1) := by
  obtain ⟨hF, _⟩ := manual_check_inv env now u st hnd ups1 st1 h
  unfold manual_check
  apply manualGo_none
  intro r hr
  have hr2 := List.mem_filter.mp hr
  exact passed_decide_vanish env now u st st1 hF r hr2.1 (by simpa using hr2.2)

/-- Committed progress values never go below the snapshot values. -/
lemma manual_committed_le (env : MCEnv) (now u : Nat) (st : Store)
    (hnd : keysNodup st) :
    List.Forall₂ (fun a b => a.latest ≤ b.latest) st
      (manual_check_committed env now u st).2 := by
  unfold manual_check_committed
  cases h : manual_check env now u st with
  | error e =>
    simp only
    rw [List.forall₂_same]
    intro a _
    exact le_refl a.latest
  | ok p =>
    obtain ⟨ups1, st1⟩ := p
    simp only
    obtain ⟨hF, _⟩ := manual_check_inv env now u st hnd ups1 st1 h
    apply hF.imp
    intro a b hab
    by_cases hu : a.user = u
    · rw [hab.1 hu (List.not_mem_nil _)]
      unfold mWrite
      cases hd : mDecide env a with
      | none => exact le_refl a.latest
      | some p2 =>
        obtain ⟨rs2, upd2⟩ := p2
        exact le_of_lt (mDecide_some_elim env a rs2 upd2 hd).2.2.1
    · rw [hab.2 (fun h2 => absurd h2 hu)]

/-- Committed state keeps the UNIQUE constraint. -/
lemma manual_committed_keysNodup (env : MCEnv) (now u : Nat) (st : Store)
    (hnd : keysNodup st) : keysNodup (manual_check_committed env now u st).2 := by
  unfold manual_check_committed
  cases h : manual_check env now u st with
  | error e => exact hnd
  | ok p =>
    obtain ⟨ups1, st1⟩ := p
    exact (manual_check_inv env now u st hnd ups1 st1 h).2

lemma applyTitleUpdate_sig (st1 st2 : Store) (h : st1.map rowSig = st2.map rowSig)
    (u : Nat) (t : String) (c : ℚ) (s : String) (now1 now2 : Nat) :
    (applyTitleUpdate st1 u t c s now1).map rowSig =
      (applyTitleUpdate st2 u t c s now2).map rowSig := by
  have key : ∀ (st : Store) (now : Nat),
      (applyTitleUpdate st u t c s now).map rowSig =
        (st.map rowSig).map
          (fun p => if p.1 = u ∧ p.2.1 = t then (p.1, t, s) else p) := by
    intro st now
    unfold applyTitleUpdate
    rw [List.map_map, List.map_map]
    apply List.map_congr_left
    intro x _
    by_cases hc : x.user = u ∧ x.title = t
    · have hc2 : (rowSig x).1 = u ∧ (rowSig x).2.1 = t := hc
      show rowSig (if x.user = u ∧ x.title = t then
          { x with latest := c, slug := s, time := now } else x) =
        if (rowSig x).1 = u ∧ (rowSig x).2.1 = t then ((rowSig x).1, t, s) else rowSig x
      rw [if_pos hc, if_pos hc2]
      unfold rowSig
      simp [hc.2]
    · have hc2 : ¬((rowSig x).1 = u ∧ (rowSig x).2.1 = t) := hc
      show rowSig (if x.user = u ∧ x.title = t then
          { x with latest := c, slug := s, time := now } else x) =
        if (rowSig x).1 = u ∧ (rowSig x).2.1 = t then ((rowSig x).1, t, s) else rowSig x
      rw [if_neg hc, if_neg hc2]
  rw [key st1 now1, key st2 now2, h]

lemma manualGo_error_congr (env : MCEnv) (u : Nat) :
    ∀ (rs : List Row) (st1 st2 : Store) (ups1 ups2 : List MUpdate) (now1 now2 : Nat),
      st1.map rowSig = st2.map rowSig →
      (manualGo env now1 u rs st1 ups1 = Except.error () ↔
        manualGo env now2 u rs st2 ups2 = Except.error ()) := by
  intro rs
  induction rs with
  | nil =>
    intro st1 st2 ups1 ups2 now1 now2 _
    constructor <;> intro h <;> exact absurd h (by simp [manualGo])
  | cons r rs' ih =>
    intro st1 st2 ups1 ups2 now1 now2 hsig
    cases hd : mDecide env r with
    | none =>
      rw [manualGo_skip env now1 u r rs' st1 ups1 hd,
        manualGo_skip env now2 u r rs' st2 ups2 hd]
      exact ih st1 st2 ups1 ups2 now1 now2 hsig
    | some p =>
      obtain ⟨rslug, upd⟩ := p
      have hsig' := applyTitleUpdate_sig st1 st2 hsig u r.title upd.number rslug now1 now2
      by_cases hk1 : keysNodup (applyTitleUpdate st1 u r.title upd.number rslug now1)
      · have hk2 : keysNodup (applyTitleUpdate st2 u r.title upd.number rslug now2) :=
          (keysNodup_congr_sig _ _ hsig').mp hk1
        rw [manualGo_fire env now1 u r rs' st1 ups1 rslug upd hd hk1,
          manualGo_fire env now2 u r rs' st2 ups2 rslug upd hd hk2]
        exact ih _ _ _ _ now1 now2 hsig'
      · have hk2 : ¬ keysNodup (applyTitleUpdate st2 u r.title upd.number rslug now2) :=
          fun h2 => hk1 ((keysNodup_congr_sig _ _ hsig').mpr h2)
        rw [manualGo_conflict env now1 u r rs' st1 ups1 rslug upd hd hk1,
          manualGo_conflict env now2 u r rs' st2 ups2 rslug upd hd hk2]

/-- An aborted pass aborts again when re-run against the same environment and
the same (unchanged) table. -/
lemma manual_error_stable (env : MCEnv) (now now' u : Nat) (st : Store)
    (h : manual_check env now u st = Except.error ()) :
    manual_check env now' u st = Except.error () := by
  unfold manual_check at h ⊢
  exact (manualGo_error_congr env u (rowsForUser st u) st st [] [] now now' rfl).mp h

lemma mDecide_iff (env : MCEnv) (r : Row) (rslug : String) (lat : MLatest) (c : ℚ)
    (hres : resolve_slug env r.title r.slug = some rslug)
    (hlat : get_latest_chapter env rslug = some lat) (hnum : lat.number = some c) :
    mDecide env r = some (rslug,
        { title := r.title, number := c, chapterTitle := lat.title, url := lat.url }) ↔
      r.latest < c := by
  constructor
  · intro h
    exact (mDecide_some_elim env r rslug _ h).2.2.1
  · intro hlt
    simp [mDecide, hres, hlat, hnum, hlt]

lemma mDecide_none_of_ge (env : MCEnv) (r : Row) (rslug : String) (lat : MLatest)
    (c : ℚ) (hres : resolve_slug env r.title r.slug = some rslug)
    (hlat : get_latest_chapter env rslug = some lat) (hnum : lat.number = some c)
    (hge : ¬ r.latest < c) : mDecide env r = none := by
  simp [mDecide, hres, hlat, hnum, hge]

lemma mDecide_none_of_noresolve (env : MCEnv) (r : Row)
    (hres : resolve_slug env r.title r.slug = none) : mDecide env r = none := by
  unfold mDecide
  rw [hres]

end ManualCheck

/-! The claims. -/

/-- C3: for every title and stored identifier, if the chapter-listing request
using the stored identifier returns at least one chapter, `resolve_slug`
returns exactly the input identifier and issues no search call; only when
that listing fails or is empty does it fall back to the title search and
return the top result's identifier; and it returns `none` exactly when the
listing yields no chapter and the search step yields no identifier. -/
theorem c3_resolver (env : ManualCheck.MCEnv) (title cur : String) :
    (∀ (ch : ManualCheck.MChapter) (chs : List ManualCheck.MChapter),
      env.chaptersResp cur = some (ch :: chs) →
        ManualCheck.resolve_slug env title cur = some cur ∧
        ManualCheck.resolve_slug_trace env title cur =
          (some cur, [ManualCheck.ApiCall.chapters cur])) ∧
    ((env.chaptersResp cur = none ∨ env.chaptersResp cur = some []) →
      ManualCheck.resolve_slug env title cur = ManualCheck.searchTopSlug env title ∧
        ManualCheck.resolve_slug_trace env title cur =
          (ManualCheck.searchTopSlug env title,
            [ManualCheck.ApiCall.chapters cur, ManualCheck.ApiCall.search title])) ∧
    (ManualCheck.resolve_slug env title cur = none ↔
      (env.chaptersResp cur = none ∨ env.chaptersResp cur = some []) ∧
        ManualCheck.searchTopSlug env title = none) := by
  refine ⟨?_, ?_, ?_⟩
  · intro ch chs h
    constructor
    · simp [ManualCheck.resolve_slug, h]
    · simp [ManualCheck.resolve_slug_trace, h]
  · intro h
    have hfall :
        (ManualCheck.resolve_slug env title cur = ManualCheck.searchTopSlug env title ∧
          ManualCheck.resolve_slug_trace env title cur =
            (ManualCheck.searchTopSlug env title,
              [ManualCheck.ApiCall.chapters cur, ManualCheck.ApiCall.search title])) := by
      rcases h with h | h <;>
      · cases hs : env.searchResp title with
        | none =>
          simp [ManualCheck.resolve_slug, ManualCheck.resolve_slug_trace,
            ManualCheck.searchTopSlug, h, hs]
        | some l =>
          cases l with
          | nil =>
            simp [ManualCheck.resolve_slug, ManualCheck.resolve_slug_trace,
              ManualCheck.searchTopSlug, h, hs]
          | cons top rest =>
            simp [ManualCheck.resolve_slug, ManualCheck.resolve_slug_trace,
              ManualCheck.searchTopSlug, h, hs]
    exact hfall
  · cases hch : env.chaptersResp cur with
    | none =>
      cases hs : env.searchResp title with
      | none =>
        simp [ManualCheck.resolve_slug, ManualCheck.searchTopSlug, hch, hs]
      | some l =>
        cases l with
        | nil => simp [ManualCheck.resolve_slug, ManualCheck.searchTopSlug, hch, hs]
        | cons top rest =>
          simp [ManualCheck.resolve_slug, ManualCheck.searchTopSlug, hch, hs]
    | some l =>
      cases l with
      | nil =>
        cases hs : env.searchResp title with
        | none =>
          simp [ManualCheck.resolve_slug, ManualCheck.searchTopSlug, hch, hs]
        | some l2 =>
          cases l2 with
          | nil => simp [ManualCheck.resolve_slug, ManualCheck.searchTopSlug, hch, hs]
          | cons top rest =>
            simp [ManualCheck.resolve_slug, ManualCheck.searchTopSlug, hch, hs]
      | cons ch chs =>
        simp [ManualCheck.resolve_slug, hch]

/-- Environment for the C3 witness: the stored slug still lists a chapter. -/
def c3EnvW : ManualCheck.MCEnv :=
  { chaptersResp := fun s =>
      if s = "solo-leveling" then
        some [{ chap := some 6, title := some "Arise", hid := "h6" }]
      else none,
    searchResp := fun _ => none }

/-- C3 witness: at a concrete environment whose listing succeeds, the
resolver confirms the stored identifier without a search call. -/
theorem c3_resolver_witness :
    ManualCheck.resolve_slug c3EnvW "Solo Leveling" "solo-leveling" =
        some "solo-leveling" ∧
      ManualCheck.resolve_slug_trace c3EnvW "Solo Leveling" "solo-leveling" =
        (some "solo-leveling", [ManualCheck.ApiCall.chapters "solo-leveling"]) :=
  (c3_resolver c3EnvW "Solo Leveling" "solo-leveling").1
    { chap := some 6, title := some "Arise", hid := "h6" } [] (by decide)

/-- Oracle for the C4 counterexample: attempt 1 times out, attempt 2 would
succeed. -/
def c4Oracle : Nat → FetchAttempt Nat :=
  fun n => if n = 1 then FetchAttempt.timeout else FetchAttempt.ok 42

/-- C4 counterexample: the claim says `fetchJson` retries up to 2 times after
a timeout, but `Manual_Check.fetch_json` performs a single attempt and
returns `None` even though the next attempt would have succeeded — unlike
`Tracking.fetch_json`, which retries once and returns the JSON on attempt 2
after one sleep. -/
theorem c4_counterexample :
    ManualCheck.fetch_json c4Oracle = none ∧
      c4Oracle 2 = FetchAttempt.ok 42 ∧
      Tracking.fetch_json c4Oracle = (some 42, 2, 1) := by
  decide

/-- C4 amended: `Tracking.fetch_json` makes up to 3 attempts (2 retries) with
one 1-unit sleep between consecutive attempts, returns the first successful
JSON, and returns `None` after the third failed attempt; `ManualCheck.fetch_json`
makes exactly one attempt and returns `None` on any failure.  Both are total
(never raise): every exception branch of the sources is caught. -/
theorem c4_amended {α : Type} (o : Nat → FetchAttempt α) :
    ((∀ i, 1 ≤ i → i ≤ 3 → (o i).isOk = false) →
      Tracking.fetch_json o = (none, 3, 2)) ∧
    (∀ j, o 1 = FetchAttempt.ok j → Tracking.fetch_json o = (some j, 1, 0)) ∧
    (∀ j, (o 1).isOk = false → o 2 = FetchAttempt.ok j →
      Tracking.fetch_json o = (some j, 2, 1)) ∧
    (∀ j, (o 1).isOk = false → (o 2).isOk = false → o 3 = FetchAttempt.ok j →
      Tracking.fetch_json o = (some j, 3, 2)) ∧
    (∀ j, o 1 = FetchAttempt.ok j → ManualCheck.fetch_json o = some j) ∧
    ((o 1).isOk = false → ManualCheck.fetch_json o = none) := by
  have hred : ∀ (i rem sl : Nat), (o i).isOk = false →
      Tracking.fetchGo o (rem + 1) i sl = Tracking.fetchGo o rem (i + 1) (sl + 1) := by
    intro i rem sl h
    cases hi : o i with
    | ok j => rw [hi] at h; simp [FetchAttempt.isOk] at h
    | badStatus c => simp [Tracking.fetchGo, hi]
    | timeout => simp [Tracking.fetchGo, hi]
    | transportError => simp [Tracking.fetchGo, hi]
  have hstop : ∀ (i sl : Nat), (o i).isOk = false →
      Tracking.fetchGo o 0 i sl = (none, i, sl) := by
    intro i sl h
    cases hi : o i with
    | ok j => rw [hi] at h; simp [FetchAttempt.isOk] at h
    | badStatus c => simp [Tracking.fetchGo, hi]
    | timeout => simp [Tracking.fetchGo, hi]
    | transportError => simp [Tracking.fetchGo, hi]
  have hok : ∀ (i rem sl : Nat) (j : α), o i = FetchAttempt.ok j →
      Tracking.fetchGo o rem i sl = (some j, i, sl) := by
    intro i rem sl j h
    cases rem <;> simp [Tracking.fetchGo, h]
  refine ⟨?_, ?_, ?_, ?_, ?_, ?_⟩
  · intro h
    show Tracking.fetchGo o (1 + 1) 1 0 = (none, 3, 2)
    rw [hred 1 1 0 (h 1 (by omega) (by omega))]
    show Tracking.fetchGo o (0 + 1) 2 1 = (none, 3, 2)
    rw [hred 2 0 1 (h 2 (by omega) (by omega))]
    exact hstop 3 2 (h 3 (by omega) (by omega))
  · intro j h
    exact hok 1 2 0 j h
  · intro j h1 h2
    show Tracking.fetchGo o (1 + 1) 1 0 = (some j, 2, 1)
    rw [hred 1 1 0 h1]
    exact hok 2 1 1 j h2
  · intro j h1 h2 h3
    show Tracking.fetchGo o (1 + 1) 1 0 = (some j, 3, 2)
    rw [hred 1 1 0 h1]
    show Tracking.fetchGo o (0 + 1) 2 1 = (some j, 3, 2)
    rw [hred 2 0 1 h2]
    exact hok 3 0 2 j h3
  · intro j h
    simp [ManualCheck.fetch_json, h]
  · intro h
    cases hi : o 1 with
    | ok j => rw [hi] at h; simp [FetchAttempt.isOk] at h
    | badStatus c => simp [ManualCheck.fetch_json, hi]
    | timeout => simp [ManualCheck.fetch_json, hi]
    | transportError => simp [ManualCheck.fetch_json, hi]

/-- Oracle for the C4 witness: every attempt fails. -/
def c4AllFail : Nat → FetchAttempt Nat := fun _ => FetchAttempt.timeout

/-- C4 amended witness: with all attempts timing out, the retrying variant
stops after attempt 3 with two sleeps and returns `None`, and the single-shot
variant returns `None` at once. -/
theorem c4_amended_witness :
    Tracking.fetch_json c4AllFail = (none, 3, 2) ∧
      ManualCheck.fetch_json c4AllFail = none :=
  ⟨(c4_amended c4AllFail).1 (fun _ _ _ => rfl),
    (c4_amended c4AllFail).2.2.2.2.2 rfl⟩

/-- C1: for every tracked row whose lookup succeeded, the check pass records
an update for the row, and persists new progress, exactly when the fetched
chapter number is strictly greater than the stored one; on an equal or lower
value the row is passed over with no update entry and no store write.  Stated
for the row step of both the scheduled loop (`trackGo`) and the on-demand
loop (`manualGo`). -/
theorem c1_strict_greater :
    (∀ (env : Tracking.TEnv) (now : Nat) (r : Row) (info : Tracking.TLatest),
      Tracking.get_latest_chapter env r.title r.slug = some info →
        (Tracking.trackDecide env r = some info ↔ r.latest < info.chapter) ∧
        (¬ r.latest < info.chapter →
          ∀ (rs : List Row) (st : Store) (ups : List (Nat × Tracking.TLatest)),
            Tracking.trackGo env now (r :: rs) st ups =
              Tracking.trackGo env now rs st ups) ∧
        (r.latest < info.chapter → env.dbFail r.user r.slug = false →
          ∀ (rs : List Row) (st : Store) (ups : List (Nat × Tracking.TLatest)),
            Tracking.trackGo env now (r :: rs) st ups =
              Tracking.trackGo env now rs
                (Tracking.applySlugUpdate st r.user r.slug info.chapter now)
                (ups ++ [(r.user, info)]))) ∧
    (∀ (env : ManualCheck.MCEnv) (now u : Nat) (r : Row) (rslug : String)
        (lat : ManualCheck.MLatest) (c : ℚ),
      ManualCheck.resolve_slug env r.title r.slug = some rslug →
      ManualCheck.get_latest_chapter env rslug = some lat →
      lat.number = some c →
        (ManualCheck.mDecide env r = some (rslug,
            { title := r.title, number := c, chapterTitle := lat.title,
              url := lat.url }) ↔ r.latest < c) ∧
        (¬ r.latest < c →
          ∀ (rs : List Row) (st : Store) (ups : List ManualCheck.MUpdate),
            ManualCheck.manualGo env now u (r :: rs) st ups =
              ManualCheck.manualGo env now u rs st ups)) := by
  constructor
  · intro env now r info k
    refine ⟨Tracking.trackDecide_iff env r info k, ?_, ?_⟩
    · intro hge rs st ups
      exact Tracking.trackGo_skip env now r rs st ups
        (Tracking.trackDecide_none_of_ge env r info k hge)
    · intro hlt hdb rs st ups
      exact Tracking.trackGo_fire env now r rs st ups info
        ((Tracking.trackDecide_iff env r info k).mpr hlt) hdb
  · intro env now u r rslug lat c hres hlat hnum
    refine ⟨ManualCheck.mDecide_iff env r rslug lat c hres hlat hnum, ?_⟩
    intro hge rs st ups
    exact ManualCheck.manualGo_skip env now u r rs st ups
      (ManualCheck.mDecide_none_of_ge env r rslug lat c hres hlat hnum hge)

/-- Environment for the C1 witness, fired case: fetched chapter 12. -/
def c1EnvA : Tracking.TEnv :=
  { comicResp := fun s => if s = "s" then some { hid := some "h", cover := none } else none,
    searchResp := fun _ => none,
    chaptersResp := fun h => if h = "h" then some [{ chap := 12, title := "t", hid := "c" }] else none,
    dbFail := fun _ _ => false,
    initReadFails := false }

/-- Row stored at 11.5 for the C1 witness. -/
def c1RowA : Row := { user := 1, title := "T", slug := "s", latest := mkRat 23 2, time := 0 }

/-- Lookup result in the C1 witness environment. -/
def c1InfoA : Tracking.TLatest :=
  { title := "T", slug := "s", chapter := 12, chapterTitle := "t",
    link := "https://comick.dev/comic/s/chapter/c", cover := none }

/-- Environment for the C1 witness, equal case: fetched chapter 11.5. -/
def c1EnvB : ManualCheck.MCEnv :=
  { chaptersResp := fun s =>
      if s = "s" then some [{ chap := some (mkRat 23 2), title := none, hid := "c" }] else none,
    searchResp := fun _ => none }

/-- Row stored at 11.5 for the C1 equal case. -/
def c1RowB : Row := { user := 1, title := "T", slug := "s", latest := mkRat 23 2, time := 0 }

/-- C1 witness: fetched 12 against stored 11.5 fires (scheduled decision);
fetched 11.5 against stored 11.5 does not — the on-demand row step passes the
row over and leaves the store argument untouched. -/
theorem c1_strict_greater_witness :
    Tracking.trackDecide c1EnvA c1RowA = some c1InfoA ∧
      ManualCheck.manualGo c1EnvB 0 1 [c1RowB] [c1RowB] [] =
        ManualCheck.manualGo c1EnvB 0 1 [] [c1RowB] [] :=
  ⟨((c1_strict_greater.1 c1EnvA 0 c1RowA c1InfoA (by decide)).1).mpr (by decide),
    (c1_strict_greater.2 c1EnvB 0 1 c1RowB "s"
        { number := some (mkRat 23 2), title := none,
          url := "https://comick.dev/comic/s/chapter/c" } (mkRat 23 2)
        (by decide) (by decide) (by decide)).2 (by decide) [] [c1RowB] []⟩

/-- C5: a tracked row whose slug resolution and chapter lookup fail is
skipped: the decision for the row is `none`, so the loop continues with the
remaining rows, the store argument untouched and no exception raised (the
continuation equations below are equations of total functions). -/
theorem c5_skip_failed_lookup :
    (∀ (env : Tracking.TEnv) (now : Nat) (r : Row),
      Tracking.get_latest_chapter env r.title r.slug = none →
        Tracking.trackDecide env r = none ∧
        ∀ (rs : List Row) (st : Store) (ups : List (Nat × Tracking.TLatest)),
          Tracking.trackGo env now (r :: rs) st ups =
            Tracking.trackGo env now rs st ups) ∧
    (∀ (env : ManualCheck.MCEnv) (now u : Nat) (r : Row),
      ManualCheck.resolve_slug env r.title r.slug = none →
        ManualCheck.mDecide env r = none ∧
        ∀ (rs : List Row) (st : Store) (ups : List ManualCheck.MUpdate),
          ManualCheck.manualGo env now u (r :: rs) st ups =
            ManualCheck.manualGo env now u rs st ups) := by
  constructor
  · intro env now r k
    refine ⟨Tracking.trackDecide_none_of_fail env r k, ?_⟩
    intro rs st ups
    exact Tracking.trackGo_skip env now r rs st ups
      (Tracking.trackDecide_none_of_fail env r k)
  · intro env now u r hres
    refine ⟨ManualCheck.mDecide_none_of_noresolve env r hres, ?_⟩
    intro rs st ups
    exact ManualCheck.manualGo_skip env now u r rs st ups
      (ManualCheck.mDecide_none_of_noresolve env r hres)

/-- Environment for the C5 witness: every request fails. -/
def c5EnvT : Tracking.TEnv :=
  { comicResp := fun _ => none, searchResp := fun _ => none,
    chaptersResp := fun _ => none, dbFail := fun _ _ => false,
    initReadFails := false }

/-- Environment for the C5 witness, on-demand side: listing and search both
fail. -/
def c5EnvM : ManualCheck.MCEnv :=
  { chaptersResp := fun _ => none, searchResp := fun _ => none }

/-- Row for the C5 witness. -/
def c5Row : Row := { user := 2, title := "T", slug := "gone", latest := 4, time := 0 }

/-- C5 witness: with both lookup steps failing, both loops step over the row
without touching the store. -/
theorem c5_skip_failed_lookup_witness :
    Tracking.trackGo c5EnvT 0 [c5Row] [c5Row] [] = Tracking.trackGo c5EnvT 0 [] [c5Row] [] ∧
      ManualCheck.manualGo c5EnvM 0 2 [c5Row] [c5Row] [] =
        ManualCheck.manualGo c5EnvM 0 2 [] [c5Row] [] :=
  ⟨((c5_skip_failed_lookup.1 c5EnvT 0 c5Row (by decide)).2) [] [c5Row] [],
    ((c5_skip_failed_lookup.2 c5EnvM 0 2 c5Row (by decide)).2) [] [c5Row] []⟩

/-- Environment for the C2 counterexample: the stored slug `s1` no longer
resolves, the search returns `s2`, and `s2` carries chapter 7. -/
def c2Env : Tracking.TEnv :=
  { comicResp := fun s => if s = "s2" then some { hid := some "h", cover := none } else none,
    searchResp := fun t => if t = "T" then some [{ slug := some "s2" }] else none,
    chaptersResp := fun h => if h = "h" then some [{ chap := 7, title := "ch", hid := "c1" }] else none,
    dbFail := fun _ _ => false,
    initReadFails := false }

/-- Row with the stale slug for the C2 counterexample. -/
def c2Row : Row := { user := 1, title := "T", slug := "s1", latest := 5, time := 0 }

/-- Lookup result of the C2 counterexample: resolved under the new slug. -/
def c2Info : Tracking.TLatest :=
  { title := "T", slug := "s2", chapter := 7, chapterTitle := "ch",
    link := "https://comick.dev/comic/s2/chapter/c1", cover := none }

/-- C2 counterexample: in the scheduled pass the resolver falls back to slug
`s2` (different from the stored `s1`), an advance is detected and the chapter
number is persisted — but the stored slug stays `s1`: the scheduled pass
never writes the resolved slug, contradicting the claim that both passes
persist it. -/
theorem c2_counterexample :
    Tracking.get_latest_chapter c2Env "T" "s1" = some c2Info ∧
      c2Info.slug = "s2" ∧
      Tracking.trackEntry c2Env c2Row = some (1, c2Info) ∧
      (Tracking.chapter_check_pass c2Env 9 [c2Row]).1 =
        [{ user := 1, title := "T", slug := "s1", latest := 7, time := 9 }] := by
  decide

/-- C2 amended: the scheduled pass persists only the chapter number and
timestamp — the stored `(user_id, manhwa_title, manhwa_slug)` columns of
every row survive any scheduled pass unchanged, so the slug never self-heals
there; the on-demand pass does persist both the new number and the resolved
slug on the checked row whenever its `UPDATE` succeeds. -/
theorem c2_amended :
    (∀ (env : Tracking.TEnv) (now : Nat) (st : Store),
      ((Tracking.chapter_check_pass env now st).1).map rowSig = st.map rowSig) ∧
    (∀ (env : ManualCheck.MCEnv) (now u : Nat) (st : Store) (r : Row)
        (rslug : String) (upd : ManualCheck.MUpdate),
      r ∈ st → r.user = u → ManualCheck.mDecide env r = some (rslug, upd) →
        { r with latest := upd.number, slug := rslug, time := now } ∈
          ManualCheck.applyTitleUpdate st u r.title upd.number rslug now) := by
  constructor
  · intro env now st
    rw [Tracking.chapter_check_pass_eq]
    exact Tracking.trackStore_sigmap env now st st
  · intro env now u st r rslug upd hr hu _
    have hmem := List.mem_map_of_mem
      (fun x => if x.user = u ∧ x.title = r.title then
        { x with latest := upd.number, slug := rslug, time := now } else x) hr
    simp only at hmem
    rw [if_pos ⟨hu, trivial⟩] at hmem
    exact hmem

/-- Environment for the C2 amended witness: stored slug fails, search heals
it, chapter 6 advances the row. -/
def c2EnvW : ManualCheck.MCEnv :=
  { chaptersResp := fun s =>
      if s = "w2" then some [{ chap := some 6, title := none, hid := "hw" }] else none,
    searchResp := fun t => if t = "W" then some [{ slug := some "w2" }] else none }

/-- Row with the stale slug for the C2 amended witness. -/
def c2RowW : Row := { user := 4, title := "W", slug := "w1", latest := 5, time := 0 }

/-- C2 amended witness: on-demand, the checked row ends up with the new
number and the resolved slug; scheduled, the sig columns are untouched. -/
theorem c2_amended_witness :
    { c2RowW with latest := 6, slug := "w2", time := 3 } ∈
        ManualCheck.applyTitleUpdate [c2RowW] 4 "W" 6 "w2" 3 ∧
      ((Tracking.chapter_check_pass c2Env 9 [c2Row]).1).map rowSig =
        [c2Row].map rowSig := by
  constructor
  · exact c2_amended.2 c2EnvW 3 4 [c2RowW] c2RowW "w2"
      { title := "W", number := 6, chapterTitle := none,
        url := "https://comick.dev/comic/w2/chapter/hw" }
      (by decide) (by decide) (by decide)
  · exact c2_amended.1 c2Env 9 [c2Row]

/-- Environment for the C6 counterexample. -/
def c6Env : ManualCheck.MCEnv :=
  { chaptersResp := fun s =>
      if s = "s1" then some [{ chap := some 6, title := none, hid := "h1" }]
      else if s = "s3" then some [{ chap := some 3, title := none, hid := "h3" }]
      else none,
    searchResp := fun _ => none }

/-- Store for the C6 counterexample: user 7 tracks two rows titled `T` (so
the first row's title-keyed `UPDATE` raises an `IntegrityError` against
`UNIQUE(user_id, manhwa_slug)`) and one more row titled `U` that still has a
pending advance. -/
def c6St : Store :=
  [{ user := 7, title := "T", slug := "s1", latest := 5, time := 0 },
   { user := 7, title := "T", slug := "s2", latest := 10, time := 0 },
   { user := 7, title := "U", slug := "s3", latest := 0, time := 0 }]

/-- Third row of the C6 store. -/
def c6RowC : Row := { user := 7, title := "U", slug := "s3", latest := 0, time := 0 }

/-- C6 counterexample: in the on-demand pass a database exception raised for
the first row (the `UNIQUE` violation of its title-keyed `UPDATE`) aborts the
whole pass: the remaining row `U` had a detected advance (3 over 0) but is
never processed, no update is reported and nothing is persisted — the claim
said a row's database exception is caught and the remaining rows still run. -/
theorem c6_counterexample :
    ManualCheck.mDecide c6Env c6RowC =
        some ("s3",
          { title := "U", number := 3, chapterTitle := none,
            url := "https://comick.dev/comic/s3/chapter/h3" }) ∧
      ManualCheck.manual_check c6Env 1 7 c6St = Except.error () ∧
      ManualCheck.manual_check_committed c6Env 1 7 c6St = ([], c6St) := by
  refine ⟨by decide, rfl, by decide⟩

/-- C6 amended: in the scheduled pass a row's failing `UPDATE` is caught by
the per-row handler — the update entry stays recorded, the loop continues
with the remaining rows, and the reported update list does not depend on
database failures at all; only a failing initial read aborts the scheduled
pass (leaving the store untouched and reporting nothing).  The on-demand
pass has no per-row handler: a database exception ends it in the pass-level
handler with nothing committed and no update reported. -/
theorem c6_amended :
    (∀ (env : Tracking.TEnv) (now : Nat) (r : Row) (info : Tracking.TLatest),
      Tracking.trackDecide env r = some info → env.dbFail r.user r.slug = true →
        ∀ (rs : List Row) (st : Store) (ups : List (Nat × Tracking.TLatest)),
          Tracking.trackGo env now (r :: rs) st ups =
            Tracking.trackGo env now rs st (ups ++ [(r.user, info)])) ∧
    (∀ (env : Tracking.TEnv) (df : Nat → String → Bool) (now : Nat) (st : Store),
      (Tracking.chapter_check_pass { env with dbFail := df } now st).2 =
        st.filterMap (Tracking.trackEntry env)) ∧
    (∀ (env : Tracking.TEnv) (now : Nat) (st : Store),
      (env.initReadFails = true → Tracking.chapter_check_loop env now st = (st, [])) ∧
      (env.initReadFails = false →
        Tracking.chapter_check_loop env now st = Tracking.chapter_check_pass env now st)) ∧
    (∀ (env : ManualCheck.MCEnv) (now u : Nat) (st : Store),
      ManualCheck.manual_check env now u st = Except.error () →
        ManualCheck.manual_check_committed env now u st = ([], st)) := by
  refine ⟨?_, ?_, ?_, ?_⟩
  · intro env now r info hd hdb rs st ups
    exact Tracking.trackGo_dbfail env now r rs st ups info hd hdb
  · intro env df now st
    rw [Tracking.pass_ups]
    have hfn : Tracking.trackEntry { env with dbFail := df } = Tracking.trackEntry env :=
      funext fun r => Tracking.trackEntry_dbFail_free env df r
    rw [hfn]
  · intro env now st
    constructor
    · intro h
      simp [Tracking.chapter_check_loop, h]
    · intro h
      simp [Tracking.chapter_check_loop, h]
  · intro env now u st h
    simp [ManualCheck.manual_check_committed, h]

/-- Scheduled environment for the C6 witness: the row advances but its
`UPDATE` raises. -/
def c6EnvT : Tracking.TEnv :=
  { comicResp := fun s => if s = "q1" then some { hid := some "qh", cover := none } else none,
    searchResp := fun _ => none,
    chaptersResp := fun h => if h = "qh" then some [{ chap := 8, title := "", hid := "qc" }] else none,
    dbFail := fun _ _ => true,
    initReadFails := false }

/-- Row for the C6 scheduled witness. -/
def c6RowT : Row := { user := 9, title := "Q", slug := "q1", latest := 1, time := 0 }

/-- Lookup result for the C6 scheduled witness. -/
def c6InfoT : Tracking.TLatest :=
  { title := "Q", slug := "q1", chapter := 8, chapterTitle := "",
    link := "https://comick.dev/comic/q1/chapter/qc", cover := none }

/-- C6 amended witness: the scheduled loop records the entry and continues
past the failing `UPDATE`; the aborted on-demand pass of the counterexample
environment commits nothing. -/
theorem c6_amended_witness :
    Tracking.trackGo c6EnvT 2 [c6RowT] [c6RowT] [] =
        Tracking.trackGo c6EnvT 2 [] [c6RowT] [(9, c6InfoT)] ∧
      ManualCheck.manual_check_committed c6Env 1 7 c6St = ([], c6St) := by
  constructor
  · have h := c6_amended.1 c6EnvT 2 c6RowT c6InfoT (by decide) (by decide) [] [c6RowT] []
    simpa using h
  · exact c6_amended.2.2.2 c6Env 1 7 c6St rfl

/-- Environment for the C9 counterexample: the stored slug `s1` of the first
row still lists chapter 6. -/
def c9Env : ManualCheck.MCEnv :=
  { chaptersResp := fun s =>
      if s = "s1" then some [{ chap := some 6, title := some "Arise", hid := "h6" }]
      else none,
    searchResp := fun _ => none }

/-- First tracked row of user 3: title `T`, slug `s1`, stored progress 5. -/
def c9RowA : Row := { user := 3, title := "T", slug := "s1", latest := 5, time := 0 }

/-- Second tracked row of user 3: same title `T`, different slug `s2`. -/
def c9RowB : Row := { user := 3, title := "T", slug := "s2", latest := 100, time := 0 }

/-- C9 counterexample: the advance on the first row is detected (6 over 5),
and the `UPDATE` is indeed keyed by `(user_id, manhwa_title)` — but instead
of overwriting every row bearing the title, it would give both rows the key
`(3, "s1")`, violates `UNIQUE(user_id, manhwa_slug)`, raises, and aborts the
pass: afterwards both rows are exactly as before (the second still at 100
with slug `s2`), and no update is reported. -/
theorem c9_counterexample :
    ManualCheck.mDecide c9Env c9RowA =
        some ("s1",
          { title := "T", number := 6, chapterTitle := some "Arise",
            url := "https://comick.dev/comic/s1/chapter/h6" }) ∧
      ManualCheck.manual_check c9Env 2 3 [c9RowA, c9RowB] = Except.error () ∧
      ManualCheck.manual_check_committed c9Env 2 3 [c9RowA, c9RowB] =
        ([], [c9RowA, c9RowB]) := by
  refine ⟨by decide, rfl, by decide⟩

/-- C9 amended: the on-demand progress update is keyed by
`(user_id, manhwa_title)` — its `UPDATE` targets every row of the user
bearing the title, not only the checked row.  When the user has two such
rows, the write would assign both the same slug; it therefore violates
`UNIQUE(user_id, manhwa_slug)`, raises, and the pass aborts with no row
modified.  Only when the title picks out a single row does the overwrite
land, and then only on that row. -/
theorem c9_amended :
    (∀ (st : Store) (u : Nat) (title : String) (c : ℚ) (slug : String)
        (now : Nat) (x : Row),
      x ∈ st → x.user = u → x.title = title →
        { x with latest := c, slug := slug, time := now } ∈
          ManualCheck.applyTitleUpdate st u title c slug now) ∧
    (∀ (st : Store) (u : Nat) (title : String) (c : ℚ) (slug : String)
        (now : Nat) (i j : Nat) (hi : i < st.length) (hj : j < st.length),
      i ≠ j → (st.get ⟨i, hi⟩).user = u → (st.get ⟨j, hj⟩).user = u →
      (st.get ⟨i, hi⟩).title = title → (st.get ⟨j, hj⟩).title = title →
        ¬ keysNodup (ManualCheck.applyTitleUpdate st u title c slug now)) ∧
    (∀ (env : ManualCheck.MCEnv) (now u : Nat) (r : Row) (rs : List Row)
        (st : Store) (ups : List ManualCheck.MUpdate) (rslug : String)
        (upd : ManualCheck.MUpdate),
      ManualCheck.mDecide env r = some (rslug, upd) →
      ¬ keysNodup (ManualCheck.applyTitleUpdate st u r.title upd.number rslug now) →
        ManualCheck.manualGo env now u (r :: rs) st ups = Except.error ()) := by
  refine ⟨?_, ?_, ?_⟩
  · intro st u title c slug now x hx hu ht
    have hmem := List.mem_map_of_mem
      (fun y => if y.user = u ∧ y.title = title then
        { y with latest := c, slug := slug, time := now } else y) hx
    simp only at hmem
    rw [if_pos ⟨hu, ht⟩] at hmem
    exact hmem
  · intro st u title c slug now i j hi hj hij hui huj hti htj
    exact ManualCheck.applyTitleUpdate_conflict st u title c slug now i j hi hj hij
      hui huj hti htj
  · intro env now u r rs st ups rslug upd hd hk
    exact ManualCheck.manualGo_conflict env now u r rs st ups rslug upd hd hk

/-- C9 amended witness: at the counterexample-style store the two same-title
rows make the title-keyed write violate the constraint and abort the loop. -/
theorem c9_amended_witness :
    ¬ keysNodup (ManualCheck.applyTitleUpdate [c9RowA, c9RowB] 3 "T" 6 "s1" 2) ∧
      ManualCheck.manualGo c9Env 2 3 [c9RowA, c9RowB] [c9RowA, c9RowB] [] =
        Except.error () ∧
      { c9RowA with latest := 6, slug := "s1", time := 2 } ∈
        ManualCheck.applyTitleUpdate [c9RowA, c9RowB] 3 "T" 6 "s1" 2 := by
  refine ⟨?_, ?_, ?_⟩
  · exact c9_amended.2.1 [c9RowA, c9RowB] 3 "T" 6 "s1" 2 0 1 (by decide) (by decide)
      (by decide) (by decide) (by decide) (by decide) (by decide)
  · exact c9_amended.2.2 c9Env 2 3 c9RowA [c9RowB] [c9RowA, c9RowB] [] "s1"
      { title := "T", number := 6, chapterTitle := some "Arise",
        url := "https://comick.dev/comic/s1/chapter/h6" }
      (by decide) (by decide)
  · exact c9_amended.1 [c9RowA, c9RowB] 3 "T" 6 "s1" 2 c9RowA (by decide) (by decide)
      (by decide)

/-- C7: under the schema invariant `UNIQUE(user_id, manhwa_slug)`, the
committed `latest_chapter_notified` of every row is monotonically
non-decreasing over a check pass — each pass relates the table to its
successor pointwise by `≤` — and each pass preserves the invariant, so the
monotonicity composes over any sequence of scheduled and on-demand passes.
The on-demand pass is read through `manual_check_committed` because an
aborted pass commits nothing (its transaction is rolled back). -/
theorem c7_monotonic :
    (∀ (env : Tracking.TEnv) (now : Nat) (st : Store), keysNodup st →
      List.Forall₂ (fun a b => a.latest ≤ b.latest) st
          (Tracking.chapter_check_pass env now st).1 ∧
        keysNodup (Tracking.chapter_check_pass env now st).1) ∧
    (∀ (env : ManualCheck.MCEnv) (now u : Nat) (st : Store), keysNodup st →
      List.Forall₂ (fun a b => a.latest ≤ b.latest) st
          (ManualCheck.manual_check_committed env now u st).2 ∧
        keysNodup (ManualCheck.manual_check_committed env now u st).2) := by
  constructor
  · intro env now st hnd
    constructor
    · have hchar : (Tracking.chapter_check_pass env now st).1 =
          st.map (Tracking.updFn env now) := by
        rw [Tracking.chapter_check_pass_eq]
        exact Tracking.trackStore_char env now st hnd
      rw [hchar]
      apply List.forall₂_of_length_eq_of_get
      · exact (List.length_map st _).symm
      · intro n h1 h2
        rw [get_map_aux (Tracking.updFn env now) st n h1 h2]
        unfold Tracking.updFn
        cases hd : Tracking.trackDecide env (st.get ⟨n, h1⟩) with
        | none => exact le_refl (st.get ⟨n, h1⟩).latest
        | some info =>
          cases hdb : env.dbFail (st.get ⟨n, h1⟩).user (st.get ⟨n, h1⟩).slug with
          | true => simp
          | false =>
            simp only [Bool.false_eq_true, if_false]
            exact le_of_lt (Tracking.trackDecide_some_elim env _ info hd).2
    · exact Tracking.pass_keysNodup env now st hnd
  · intro env now u st hnd
    exact ⟨ManualCheck.manual_committed_le env now u st hnd,
      ManualCheck.manual_committed_keysNodup env now u st hnd⟩

/-- Environment for the C7 witness: a single row advancing from 5 to 6. -/
def c7EnvT : Tracking.TEnv :=
  { comicResp := fun s => if s = "m1" then some { hid := some "mh", cover := none } else none,
    searchResp := fun _ => none,
    chaptersResp := fun h => if h = "mh" then some [{ chap := 6, title := "", hid := "mc" }] else none,
    dbFail := fun _ _ => false,
    initReadFails := false }

/-- Environment for the C7 witness, on-demand side. -/
def c7EnvM : ManualCheck.MCEnv :=
  { chaptersResp := fun s =>
      if s = "m1" then some [{ chap := some 6, title := none, hid := "mc" }] else none,
    searchResp := fun _ => none }

/-- Row for the C7 witness. -/
def c7Row : Row := { user := 6, title := "M", slug := "m1", latest := 5, time := 0 }

/-- C7 witness: both passes keep the stored value non-decreasing on a
concrete advancing row. -/
theorem c7_monotonic_witness :
    List.Forall₂ (fun a b => a.latest ≤ b.latest) [c7Row]
        (Tracking.chapter_check_pass c7EnvT 1 [c7Row]).1 ∧
      List.Forall₂ (fun a b => a.latest ≤ b.latest) [c7Row]
        (ManualCheck.manual_check_committed c7EnvM 1 6 [c7Row]).2 :=
  ⟨(c7_monotonic.1 c7EnvT 1 [c7Row] (by decide)).1,
    (c7_monotonic.2 c7EnvM 1 6 [c7Row] (by decide)).1⟩

/-- C8: a second check pass against unchanged upstream responses reports zero
updates and performs no store mutation.  Scheduled: once the first pass has
persisted its updates (no row `UPDATE` failed), the second pass returns the
store unchanged with an empty update list.  On-demand: after a successful
pass, a re-run succeeds with no updates and the same store; after an aborted
pass (which persisted nothing), a re-run aborts identically, again reporting
nothing and committing nothing.  Both statements hold for any timestamp of
the second run. -/
theorem c8_idempotent :
    (∀ (env : Tracking.TEnv) (now now' : Nat) (st : Store), keysNodup st →
      (∀ (a : Nat) (b : String), env.dbFail a b = false) →
      Tracking.chapter_check_pass env now' ((Tracking.chapter_check_pass env now st).1) =
        ((Tracking.chapter_check_pass env now st).1, [])) ∧
    (∀ (env : ManualCheck.MCEnv) (now now' u : Nat) (st : Store)
        (ups1 : List ManualCheck.MUpdate) (st1 : Store), keysNodup st →
      ManualCheck.manual_check env now u st = Except.ok (ups1, st1) →
      ManualCheck.manual_check env now' u st1 = Except.ok ([], st1)) ∧
    (∀ (env : ManualCheck.MCEnv) (now now' u : Nat) (st : Store),
      ManualCheck.manual_check env now u st = Except.error () →
      ManualCheck.manual_check env now' u st = Except.error () ∧
        ManualCheck.manual_check_committed env now' u st = ([], st)) := by
  refine ⟨?_, ?_, ?_⟩
  · intro env now now' st hnd hdb
    exact Tracking.scheduled_idempotent env now now' st hnd hdb
  · intro env now now' u st ups1 st1 hnd h
    exact ManualCheck.manual_idempotent_ok env now now' u st ups1 st1 hnd h
  · intro env now now' u st h
    have hstable := ManualCheck.manual_error_stable env now now' u st h
    exact ⟨hstable, by simp [ManualCheck.manual_check_committed, hstable]⟩

/-- Environment for the C8 witness: the single row of user 5 advances from 2
to 9 on the first pass. -/
def c8EnvW : ManualCheck.MCEnv :=
  { chaptersResp := fun s =>
      if s = "v1" then some [{ chap := some 9, title := none, hid := "hv" }] else none,
    searchResp := fun _ => none }

/-- Row before the first C8 pass. -/
def c8RowW : Row := { user := 5, title := "V", slug := "v1", latest := 2, time := 0 }

/-- Row after the first C8 pass. -/
def c8RowW2 : Row := { user := 5, title := "V", slug := "v1", latest := 9, time := 0 }

/-- Update entry of the first C8 pass. -/
def c8UpdW : ManualCheck.MUpdate :=
  { title := "V", number := 9, chapterTitle := none,
    url := "https://comick.dev/comic/v1/chapter/hv" }

/-- C8 witness: a concrete first pass fires and persists; the second pass
returns the stored table unchanged with zero updates. -/
theorem c8_idempotent_witness :
    ManualCheck.manual_check c8EnvW 1 5 [c8RowW2] = Except.ok ([], [c8RowW2]) :=
  c8_idempotent.2.1 c8EnvW 0 1 5 [c8RowW] [c8UpdW] [c8RowW2] (by decide) rfl

/-- C10: in the scheduled sweep the store is written during the row loop,
before any DM is attempted: the persisted store is a function of the check
environment alone and does not depend on the delivery oracle, so a delivery
failure cannot roll progress back; and because the store already holds the
new chapter number, a later pass against unchanged upstream responses
reports no update — the chapter is never surfaced again. -/
theorem c10_store_before_notify :
    (∀ (env : Tracking.TEnv) (nenv nenv' : Tracking.NotifyEnv) (now : Nat) (st : Store),
      (Tracking.scheduled_sweep env nenv now st).1 =
        (Tracking.scheduled_sweep env nenv' now st).1) ∧
    (∀ (env : Tracking.TEnv) (nenv : Tracking.NotifyEnv) (now : Nat) (st : Store),
      (Tracking.scheduled_sweep env nenv now st).1 =
        (Tracking.chapter_check_loop env now st).1) ∧
    (∀ (env : Tracking.TEnv) (now now' : Nat) (st : Store), keysNodup st →
      (∀ (a : Nat) (b : String), env.dbFail a b = false) →
      env.initReadFails = false →
      (Tracking.chapter_check_loop env now'
          ((Tracking.chapter_check_loop env now st).1)).2 = []) := by
  refine ⟨?_, ?_, ?_⟩
  · intro env nenv nenv' now st
    rfl
  · intro env nenv now st
    rfl
  · intro env now now' st hnd hdb hinit
    simp only [Tracking.chapter_check_loop, hinit, Bool.false_eq_true, if_false]
    rw [Tracking.scheduled_idempotent env now now' st hnd hdb]

/-- Delivery oracle failing for every user. -/
def c10NoDeliver : Tracking.NotifyEnv := { deliverOk := fun _ => false }

/-- Delivery oracle succeeding for every user. -/
def c10AllDeliver : Tracking.NotifyEnv := { deliverOk := fun _ => true }

/-- C10 witness: with the C7 environment (row advancing 5 to 6), the
persisted store is identical whether every DM fails or succeeds, and the
second scheduled pass reports no updates. -/
theorem c10_store_before_notify_witness :
    (Tracking.scheduled_sweep c7EnvT c10NoDeliver 1 [c7Row]).1 =
        (Tracking.scheduled_sweep c7EnvT c10AllDeliver 1 [c7Row]).1 ∧
      (Tracking.chapter_check_loop c7EnvT 2
          ((Tracking.chapter_check_loop c7EnvT 1 [c7Row]).1)).2 = [] :=
  ⟨c10_store_before_notify.1 c7EnvT c10NoDeliver c10AllDeliver 1 [c7Row],
    c10_store_before_notify.2.2 c7EnvT 1 2 [c7Row] (by decide) (fun _ _ => rfl) rfl⟩

end ManhwaBot
